import Mathlib

/-!
Verification of the Forex-Trading repository's strategy code.

The repository contains three Python scripts (`main.py`, `macd.py`,
`trendfilteredrsi.py`) that define trading strategies on top of the
`backtesting` framework and the `ta` indicator library.  We shallowly
embed the strategies' indicator pipelines and per-bar decision functions.

Numeric model: the Python code computes with IEEE floats over pandas
series.  We embed float values as `FP`: a finite rational, `nan`, or a
signed infinity, with the IEEE comparison/propagation rules the code
relies on (comparisons with `nan` are false, positive/zero = +inf,
finite/inf = 0, `nan` propagates through arithmetic).  Rounding is
immaterial to every claim (all claims are exact structural identities),
so finite values are exact rationals.

Definitions are transcribed from the source; components of the
`backtesting`/`ta` libraries that the repository calls but does not
contain are modelled from the spec and marked `Modelled from the spec:`.
-/

/-- An IEEE-float-like value: not-a-number, a finite rational, or a signed
infinity.  Stands for the values flowing through the pandas/numpy pipelines. -/
inductive FP where
  | nan : FP
  | fin : ℚ → FP
  | inf : FP
  | ninf : FP
deriving DecidableEq, Repr

namespace FP

/-- IEEE negation. -/
def neg : FP → FP
  | nan => nan
  | fin a => fin (-a)
  | inf => ninf
  | ninf => inf

/-- IEEE addition (the cases arising in the pipelines; `nan` propagates,
opposite infinities give `nan`). -/
def add : FP → FP → FP
  | nan, _ => nan
  | _, nan => nan
  | inf, ninf => nan
  | ninf, inf => nan
  | inf, _ => inf
  | _, inf => inf
  | ninf, _ => ninf
  | _, ninf => ninf
  | fin a, fin b => fin (a + b)

/-- IEEE subtraction, `a - b = a + (-b)`. -/
def sub (a b : FP) : FP := add a (neg b)

/-- IEEE division under numpy semantics: `nan` propagates, `inf/inf = nan`,
a nonzero finite over zero is a signed infinity, `0/0 = nan`,
finite over infinity is `0`. -/
def div : FP → FP → FP
  | nan, _ => nan
  | _, nan => nan
  | inf, inf => nan
  | inf, ninf => nan
  | ninf, inf => nan
  | ninf, ninf => nan
  | inf, fin b => if b < 0 then ninf else inf
  | ninf, fin b => if b < 0 then inf else ninf
  | fin _, inf => fin 0
  | fin _, ninf => fin 0
  | fin a, fin b =>
      if b = 0 then (if a = 0 then nan else if 0 < a then inf else ninf)
      else fin (a / b)

/-- IEEE strict less-than: any comparison involving `nan` is false. -/
def lt : FP → FP → Bool
  | fin a, fin b => decide (a < b)
  | ninf, fin _ => true
  | fin _, inf => true
  | ninf, inf => true
  | _, _ => false

/-- IEEE less-or-equal: any comparison involving `nan` is false. -/
def le : FP → FP → Bool
  | fin a, fin b => decide (a ≤ b)
  | ninf, fin _ => true
  | fin _, inf => true
  | ninf, inf => true
  | inf, inf => true
  | ninf, ninf => true
  | _, _ => false

/-- `pd.isna`: true exactly on `nan` (infinities are not NA). -/
def isNa : FP → Bool
  | nan => true
  | _ => false

/-- Is the value a finite number? -/
def isFin : FP → Bool
  | fin _ => true
  | _ => false

/-- The rational carried by a finite value (`0` otherwise; only ever
applied under an `isFin` guard). -/
def toQ : FP → ℚ
  | fin a => a
  | _ => 0

end FP

/-!
## `main.py`, `RSIMeanReversion.init`: the hand-rolled RSI pipeline

```
delta = close.diff()
gain = delta.where(delta > 0, 0)
loss = -delta.where(delta < 0, 0)
avg_gain = gain.rolling(window=rsi_period, min_periods=rsi_period).mean()
avg_loss = loss.rolling(window=rsi_period, min_periods=rsi_period).mean()
rs = avg_gain / avg_loss
rsi = 100 - (100 / (1 + rs))
```

Close prices are numeric (the loader guarantees non-missing OHLC), so the
input is a total function `ℕ → ℚ`; a finite series is its prefix, and every
pipeline value at index `i` depends only on entries `0..i`.
-/

/-- `close.diff()`: `nan` at index 0, else the difference to the previous bar. -/
def deltaSeries (c : ℕ → ℚ) : ℕ → FP
  | 0 => FP.nan
  | i + 1 => FP.fin (c (i + 1) - c i)

/-- `delta.where(delta > 0, 0)`: the delta where positive, else `0`
(the index-0 `nan` compares false, hence becomes `0`). -/
def gainSeries (c : ℕ → ℚ) (i : ℕ) : FP :=
  if FP.lt (FP.fin 0) (deltaSeries c i) then deltaSeries c i else FP.fin 0

/-- `-delta.where(delta < 0, 0)`: minus the delta where negative, else `0`. -/
def lossSeries (c : ℕ → ℚ) (i : ℕ) : FP :=
  FP.neg (if FP.lt (deltaSeries c i) (FP.fin 0) then deltaSeries c i else FP.fin 0)

/-- `s.rolling(window=n, min_periods=n).mean()`: `nan` while fewer than `n`
entries exist or while any entry of the window is `nan`, else the arithmetic
mean of the window.  (In the pipelines at hand every non-`nan` entry is
finite, so non-finite is equated with `nan`.) -/
def rollingMean (n : ℕ) (s : ℕ → FP) (i : ℕ) : FP :=
  if i + 1 < n then FP.nan
  else if (List.range n).all (fun j => (s (i - j)).isFin) then
    FP.fin ((∑ j ∈ Finset.range n, (s (i - j)).toQ) / n)
  else FP.nan

/-- `avg_gain` of `RSIMeanReversion.init`. -/
def avgGain (n : ℕ) (c : ℕ → ℚ) (i : ℕ) : FP := rollingMean n (gainSeries c) i

/-- `avg_loss` of `RSIMeanReversion.init`. -/
def avgLoss (n : ℕ) (c : ℕ → ℚ) (i : ℕ) : FP := rollingMean n (lossSeries c) i

/-- `rs = avg_gain / avg_loss`. -/
def rsSeries (n : ℕ) (c : ℕ → ℚ) (i : ℕ) : FP :=
  FP.div (avgGain n c i) (avgLoss n c i)

/-- `rsi = 100 - (100 / (1 + rs))`. -/
def rsiSeries (n : ℕ) (c : ℕ → ℚ) (i : ℕ) : FP :=
  FP.sub (FP.fin 100) (FP.div (FP.fin 100) (FP.add (FP.fin 1) (rsSeries n c i)))

/-!
Direct mathematical form of the rolling statistics, for stating the claims:
per-bar gain/loss and their simple (windowed arithmetic) means.
-/

/-- The per-bar gain as a rational: `max (close i − close (i−1)) 0`, and `0`
at bar 0 (the `nan` diff compares false in `where`, yielding `0`). -/
def gainQ (c : ℕ → ℚ) (i : ℕ) : ℚ :=
  if i = 0 then 0 else max (c i - c (i - 1)) 0

/-- The per-bar loss as a rational: `max (close (i−1) − close i) 0`, and `0`
at bar 0. -/
def lossQ (c : ℕ → ℚ) (i : ℕ) : ℚ :=
  if i = 0 then 0 else max (c (i - 1) - c i) 0

/-- Simple rolling mean of the per-bar gains over the last `n` bars. -/
def simpleAvgGain (n : ℕ) (c : ℕ → ℚ) (i : ℕ) : ℚ :=
  (∑ j ∈ Finset.range n, gainQ c (i - j)) / n

/-- Simple rolling mean of the per-bar losses over the last `n` bars. -/
def simpleAvgLoss (n : ℕ) (c : ℕ → ℚ) (i : ℕ) : ℚ :=
  (∑ j ∈ Finset.range n, lossQ c (i - j)) / n

/-- A concrete close series for evaluating the RSI pipeline:
1, 3, 2, 1, 1, … (one gain bar, then loss bars). -/
def closeMix : ℕ → ℚ := fun i => if i = 1 then 3 else if i = 2 then 2 else 1

/-- A strictly rising close series: 1, 2, 3, 3, 3, …. -/
def closeUp : ℕ → ℚ := fun i => if i = 0 then 1 else if i = 1 then 2 else 3

/-!
## `macd.py`, `MACDCrossover`

The class body defines `init`/`next` twice; by Python class-body semantics
the later definitions shadow the earlier ones.  The first (shadowed) `init`
builds MACD from the file's `ema` helper; the effective second `init` calls
`ta.trend.macd`/`ta.trend.macd_signal`, which are not part of the
repository and are modelled from the spec below.
-/

/-- The `MACDCrossover.ema` helper (`macd.py` lines 49–60): `ema_arr[0] =
arr[0]`, then the loop `ema_arr[i] = alpha*arr[i] + (1-alpha)*ema_arr[i-1]`
with `alpha = 2/(n+1)`. -/
def MACDCrossover.ema (arr : ℕ → ℚ) (n : ℕ) : ℕ → ℚ
  | 0 => arr 0
  | i + 1 =>
      (2 / ((n : ℚ) + 1)) * arr (i + 1) +
        (1 - 2 / ((n : ℚ) + 1)) * MACDCrossover.ema arr n i

/-- `macd_line` of the shadowed first `MACDCrossover.init` (`macd.py`
lines 24–30): `ema(close, fast) − ema(close, slow)`. -/
def handMacdLine (c : ℕ → ℚ) (fast slow : ℕ) (i : ℕ) : ℚ :=
  MACDCrossover.ema c fast i - MACDCrossover.ema c slow i

/-- `signal_line` of the shadowed first `MACDCrossover.init`:
`ema(macd_line, signal_period)`. -/
def handSignalLine (c : ℕ → ℚ) (fast slow sig : ℕ) (i : ℕ) : ℚ :=
  MACDCrossover.ema (handMacdLine c fast slow) sig i

/-- Modelled from the spec: the exponential moving average computed by the
`ta` library (which is not part of the repository): "seed at index 0 with
the first price; for i≥1, `ema[i] = alpha*price[i] + (1-alpha)*ema[i-1]`,
alpha = 2/(n+1). No warm-up gap (defined from index 0)". -/
def specEma (price : ℕ → ℚ) (n : ℕ) : ℕ → ℚ
  | 0 => price 0
  | i + 1 =>
      (2 / ((n : ℚ) + 1)) * price (i + 1) +
        (1 - 2 / ((n : ℚ) + 1)) * specEma price n i

/-- Modelled from the spec: `ta.trend.macd` as called by the effective
`MACDCrossover.init` (`macd.py` lines 70–73): "MACD = EMA(fast) − EMA(slow)". -/
def taMacd (c : ℕ → ℚ) (fast slow : ℕ) (i : ℕ) : ℚ :=
  specEma c fast i - specEma c slow i

/-- Modelled from the spec: `ta.trend.macd_signal` as called by the
effective `MACDCrossover.init`: "signal = EMA(MACD, signal_period)". -/
def taMacdSignal (c : ℕ → ℚ) (fast slow sig : ℕ) (i : ℕ) : ℚ :=
  specEma (taMacd c fast slow) sig i

/-- Direction of an open position. -/
inductive Dir where
  | long : Dir
  | short : Dir
deriving DecidableEq, Repr

/-- The action a plain strategy decision step emits: nothing (`hold`), a
buy (enter long), a sell (enter short), or closing the open position. -/
inductive Act where
  | hold : Act
  | buy : Act
  | sell : Act
  | close : Act
deriving DecidableEq, Repr

/-- `MACDCrossover.next` (`macd.py` lines 75–90).  At bar `i` the framework
exposes `i + 1` indicator values, so `len(...) < 2` is `i + 1 < 2`; `[-1]`
is index `i` and `[-2]` is index `i − 1`. -/
def macdNext (m s : ℕ → ℚ) (i : ℕ) (pos : Option Dir) : Act :=
  if i + 1 < 2 then Act.hold
  else if pos = none ∧ m (i - 1) < s (i - 1) ∧ m i > s i then Act.buy
  else if pos = none ∧ m (i - 1) > s (i - 1) ∧ m i < s i then Act.sell
  else if pos = some Dir.long ∧ m (i - 1) > s (i - 1) ∧ m i < s i then Act.close
  else if pos = some Dir.short ∧ m (i - 1) < s (i - 1) ∧ m i > s i then Act.close
  else Act.hold

/-- `RSIMeanReversion.next` (`main.py` lines 45–57): enter while flat on the
RSI thresholds, exit an open position when the RSI passes the exit level.
All comparisons are IEEE (false on `nan`). -/
def rsiMRNext (oversold overbought exitLevel : ℚ) (rsiV : FP) (pos : Option Dir) : Act :=
  match pos with
  | none =>
      if FP.lt rsiV (FP.fin oversold) then Act.buy
      else if FP.lt (FP.fin overbought) rsiV then Act.sell
      else Act.hold
  | some Dir.long =>
      if FP.lt (FP.fin exitLevel) rsiV then Act.close else Act.hold
  | some Dir.short =>
      if FP.lt rsiV (FP.fin exitLevel) then Act.close else Act.hold

/-- Modelled from the spec: the `backtesting` engine's Position & Order
Manager transition (§4.3; the engine is not part of the repository).
Entries fill only from flat (`exclusive_orders`): "a new entry signal while
already in a position is ignored rather than queued or stacked"; `close`
flattens; `close` while flat is a no-op. -/
def applyAct (pos : Option Dir) (a : Act) : Option Dir :=
  match a, pos with
  | Act.buy, none => some Dir.long
  | Act.sell, none => some Dir.short
  | Act.close, some _ => none
  | _, p => p

/-- A backtest run of `RSIMeanReversion` over an RSI value series: the
position held before bar `i` (the simulation loop itself is modelled from
the spec §4.4: per bar, invoke the decision step and apply the manager
transition). -/
def rsiMRRunPos (oversold overbought exitLevel : ℚ) (rsiS : ℕ → FP) : ℕ → Option Dir
  | 0 => none
  | i + 1 =>
      applyAct (rsiMRRunPos oversold overbought exitLevel rsiS i)
        (rsiMRNext oversold overbought exitLevel (rsiS i)
          (rsiMRRunPos oversold overbought exitLevel rsiS i))

/-!
## `trendfilteredrsi.py`, `TrendFilteredRSI`
-/

/-- The strategy parameters of `TrendFilteredRSI`
(`trendfilteredrsi.py` lines 38–44). -/
structure TFRParams where
  rsiPeriod : ℕ
  emaPeriod : ℕ
  atrPeriod : ℕ
  oversold : ℚ
  overbought : ℚ
  exitLevel : ℚ
  slAtrMult : ℚ
deriving Repr

/-- The default parameter values of `TrendFilteredRSI`: RSI 14, EMA 200,
ATR 14, oversold 30, overbought 70, exit 50, stop multiplier 2.0. -/
def TFRParams.default : TFRParams :=
  ⟨14, 200, 14, 30, 70, 50, 2⟩

/-- The action the `TrendFilteredRSI` decision step emits: nothing, an
entry order with its attached stop-loss, a close, or a rejected entry
(`warnSkip`: the illogical-stop branch prints a diagnostic warning and
places no order; execution continues normally). -/
inductive TAct where
  | hold : TAct
  | buySl : ℚ → TAct
  | sellSl : ℚ → TAct
  | close : TAct
  | warnSkip : TAct
deriving DecidableEq, Repr

/-- Modelled from the spec: `backtesting.lib.crossover(series, level)` (not
part of the repository): the series "crossing the exit level, detected as
the sign change between the previous and current bar".  False whenever a
value is undefined (IEEE comparisons). -/
def crossAbove (prev cur : FP) (level : ℚ) : Bool :=
  FP.lt prev (FP.fin level) && FP.lt (FP.fin level) cur

/-- Modelled from the spec: `backtesting.lib.crossover(level, series)`,
the series crossing below the level between the previous and current bar. -/
def crossBelow (prev cur : FP) (level : ℚ) : Bool :=
  FP.lt (FP.fin level) prev && FP.lt cur (FP.fin level)

/-- `TrendFilteredRSI.next` (`trendfilteredrsi.py` lines 70–132).  At bar
`i`, `len(self.data.Close) = nBars = i + 1`; `price` is the current close
(loader-guaranteed numeric), the indicator values are IEEE values
(possibly `nan` during warm-up; the ATR of numeric data is finite where
defined), `prevRsi` is the RSI at the previous bar, consumed by the
spec-modelled `crossover` exits. -/
def tfrNext (p : TFRParams) (nBars : ℕ) (price : ℚ)
    (rsiV emaV atrV prevRsi : FP) (pos : Option Dir) : TAct :=
  if nBars < max p.rsiPeriod (max p.emaPeriod p.atrPeriod) then TAct.hold
  else if rsiV.isNa || emaV.isNa || atrV.isNa || FP.le atrV (FP.fin 0) then TAct.hold
  else
    let longStop := price - p.slAtrMult * atrV.toQ
    let shortStop := price + p.slAtrMult * atrV.toQ
    match pos with
    | none =>
        if FP.lt emaV (FP.fin price) && FP.lt rsiV (FP.fin p.oversold) then
          (if longStop < price then TAct.buySl longStop else TAct.warnSkip)
        else if FP.lt (FP.fin price) emaV && FP.lt (FP.fin p.overbought) rsiV then
          (if price < shortStop then TAct.sellSl shortStop else TAct.warnSkip)
        else TAct.hold
    | some Dir.long =>
        if crossAbove prevRsi rsiV p.exitLevel then TAct.close else TAct.hold
    | some Dir.short =>
        if crossBelow prevRsi rsiV p.exitLevel then TAct.close else TAct.hold

/-- Modelled from the spec: the engine transition for `TrendFilteredRSI`
actions (entries carry a stop; the position state keeps the direction).
Entries fill only from flat; rejected or empty actions change nothing. -/
def applyTAct (pos : Option Dir) (a : TAct) : Option Dir :=
  match a, pos with
  | TAct.buySl _, none => some Dir.long
  | TAct.sellSl _, none => some Dir.short
  | TAct.close, some _ => none
  | _, p => p

/-- The RSI value of the previous bar (`nan` at bar 0, where no previous
bar exists). -/
def prevRsiAt (rsiS : ℕ → FP) : ℕ → FP
  | 0 => FP.nan
  | i + 1 => rsiS i

/-- The position held before bar `i` in a `TrendFilteredRSI` run over `N`
bars of data (loop modelled from the spec §4.4). -/
def tfrRunPos (p : TFRParams) (price : ℕ → ℚ) (rsiS emaS atrS : ℕ → FP) :
    ℕ → Option Dir
  | 0 => none
  | i + 1 =>
      applyTAct (tfrRunPos p price rsiS emaS atrS i)
        (tfrNext p (i + 1) (price i) (rsiS i) (emaS i) (atrS i)
          (prevRsiAt rsiS i) (tfrRunPos p price rsiS emaS atrS i))

/-- The per-bar actions emitted over a `TrendFilteredRSI` run, oldest
first. -/
def tfrActions (p : TFRParams) (price : ℕ → ℚ) (rsiS emaS atrS : ℕ → FP)
    (N : ℕ) : List TAct :=
  (List.range N).map (fun i =>
    tfrNext p (i + 1) (price i) (rsiS i) (emaS i) (atrS i)
      (prevRsiAt rsiS i) (tfrRunPos p price rsiS emaS atrS i))

/-- The failure conditions the spec names for a backtest run. -/
inductive RunError where
  | dataInsufficient : RunError
deriving DecidableEq, Repr

/-- `TrendFilteredRSI.init` data check (`trendfilteredrsi.py` lines 49–52):
with fewer bars than the largest indicator window it prints a warning and
continues — nothing is raised. -/
def tfrInitWarns (p : TFRParams) (nBars : ℕ) : Bool :=
  nBars < max p.rsiPeriod (max p.emaPeriod p.atrPeriod)

/-- A whole `TrendFilteredRSI` backtest run as a fallible computation
returning the `init` warning flag and the emitted actions.  No code path in
`load_data`, `init`, `next`, or `run_backtest` raises on insufficient data,
so the result is always `Except.ok`; the error type records the spec's
claimed `DataInsufficient` condition for comparison. -/
def tfrRun (p : TFRParams) (price : ℕ → ℚ) (rsiS emaS atrS : ℕ → FP)
    (N : ℕ) : Except RunError (Bool × List TAct) :=
  Except.ok (tfrInitWarns p N, tfrActions p price rsiS emaS atrS N)

/-! ## Concrete series for witnesses -/

/-- A concrete MACD line for witnesses: 2, 0, 0, …. -/
def mWit : ℕ → ℚ := fun j => if j = 0 then 2 else 0

/-- A concrete signal line for witnesses: constantly 1. -/
def sWit : ℕ → ℚ := fun _ => 1

/-- `mWit` altered at indices ≥ 2 only. -/
def mWitAlt : ℕ → ℚ := fun j => if j = 0 then 2 else if j = 1 then 0 else 7

/-- `sWit` altered at indices ≥ 2 only. -/
def sWitAlt : ℕ → ℚ := fun j => if j ≤ 1 then 1 else 5

/-- A constant oversold RSI series (value 20): triggers a long entry at
bar 0 of an `RSIMeanReversion` run. -/
def rsiWit : ℕ → FP := fun _ => FP.fin 20

/-! ## Basic computation lemmas for `FP` -/

theorem FP.nan_div (x : FP) : FP.div FP.nan x = FP.nan := by cases x <;> rfl

theorem FP.div_nan (x : FP) : FP.div x FP.nan = FP.nan := by cases x <;> rfl

theorem FP.nan_add (x : FP) : FP.add FP.nan x = FP.nan := by cases x <;> rfl

theorem FP.add_nan (x : FP) : FP.add x FP.nan = FP.nan := by cases x <;> rfl

theorem FP.sub_nan (x : FP) : FP.sub x FP.nan = FP.nan := by cases x <;> rfl

theorem FP.fin_add_fin (a b : ℚ) : FP.add (FP.fin a) (FP.fin b) = FP.fin (a + b) := rfl

theorem FP.fin_sub_fin (a b : ℚ) : FP.sub (FP.fin a) (FP.fin b) = FP.fin (a - b) := by
  show FP.add (FP.fin a) (FP.fin (-b)) = FP.fin (a - b)
  rw [FP.fin_add_fin, sub_eq_add_neg]

theorem FP.fin_add_inf (a : ℚ) : FP.add (FP.fin a) FP.inf = FP.inf := rfl

theorem FP.fin_div_inf (a : ℚ) : FP.div (FP.fin a) FP.inf = FP.fin 0 := rfl

theorem FP.fin_div_fin (a b : ℚ) (hb : b ≠ 0) :
    FP.div (FP.fin a) (FP.fin b) = FP.fin (a / b) := by
  simp [FP.div, hb]

theorem FP.fin_div_zero (a : ℚ) (ha : 0 < a) :
    FP.div (FP.fin a) (FP.fin 0) = FP.inf := by
  simp [FP.div, ha, ha.ne']

/-! ## The RSI pipeline equals the simple rolling formulas -/

theorem gainQ_nonneg (c : ℕ → ℚ) (i : ℕ) : 0 ≤ gainQ c i := by
  unfold gainQ
  split
  · exact le_refl 0
  · exact le_max_right _ _

theorem lossQ_nonneg (c : ℕ → ℚ) (i : ℕ) : 0 ≤ lossQ c i := by
  unfold lossQ
  split
  · exact le_refl 0
  · exact le_max_right _ _

theorem simpleAvgGain_nonneg (n : ℕ) (c : ℕ → ℚ) (i : ℕ) : 0 ≤ simpleAvgGain n c i :=
  div_nonneg (Finset.sum_nonneg fun j _ => gainQ_nonneg c (i - j)) (Nat.cast_nonneg n)

theorem simpleAvgLoss_nonneg (n : ℕ) (c : ℕ → ℚ) (i : ℕ) : 0 ≤ simpleAvgLoss n c i :=
  div_nonneg (Finset.sum_nonneg fun j _ => lossQ_nonneg c (i - j)) (Nat.cast_nonneg n)

theorem gainSeries_eq_fin (c : ℕ → ℚ) (i : ℕ) :
    gainSeries c i = FP.fin (gainQ c i) := by
  cases i with
  | zero => rfl
  | succ k =>
      simp only [gainSeries, deltaSeries, FP.lt, gainQ, if_neg (Nat.succ_ne_zero k),
        Nat.add_sub_cancel]
      rcases le_or_lt (c (k + 1) - c k) 0 with h | h
      · rw [if_neg (by simpa using not_lt.mpr h), max_eq_right h]
      · rw [if_pos (by simpa using h), max_eq_left h.le]

theorem lossSeries_eq_fin (c : ℕ → ℚ) (i : ℕ) :
    lossSeries c i = FP.fin (lossQ c i) := by
  cases i with
  | zero => simp [lossSeries, deltaSeries, FP.lt, FP.neg, lossQ]
  | succ k =>
      simp only [lossSeries, deltaSeries, FP.lt, lossQ, if_neg (Nat.succ_ne_zero k),
        Nat.add_sub_cancel]
      rcases lt_or_le (c (k + 1) - c k) 0 with h | h
      · rw [if_pos (by simpa using h)]
        simp only [FP.neg]
        congr 1
        rw [max_eq_left (by linarith)]
        ring
      · rw [if_neg (by simpa using not_lt.mpr h)]
        simp only [FP.neg]
        congr 1
        rw [max_eq_right (by linarith)]
        norm_num

theorem avgGain_eq_fin (n : ℕ) (c : ℕ → ℚ) (i : ℕ) (h : n ≤ i + 1) :
    avgGain n c i = FP.fin (simpleAvgGain n c i) := by
  unfold avgGain rollingMean
  rw [if_neg (by omega)]
  rw [if_pos]
  · unfold simpleAvgGain
    congr 1
    congr 1
    refine Finset.sum_congr rfl (fun j _ => ?_)
    rw [gainSeries_eq_fin]
    rfl
  · simp only [List.all_eq_true, List.mem_range]
    intro j _
    rw [gainSeries_eq_fin]
    rfl

theorem avgLoss_eq_fin (n : ℕ) (c : ℕ → ℚ) (i : ℕ) (h : n ≤ i + 1) :
    avgLoss n c i = FP.fin (simpleAvgLoss n c i) := by
  unfold avgLoss rollingMean
  rw [if_neg (by omega)]
  rw [if_pos]
  · unfold simpleAvgLoss
    congr 1
    congr 1
    refine Finset.sum_congr rfl (fun j _ => ?_)
    rw [lossSeries_eq_fin]
    rfl
  · simp only [List.all_eq_true, List.mem_range]
    intro j _
    rw [lossSeries_eq_fin]
    rfl

/-- C3: the hand-rolled RSI of `RSIMeanReversion.init` is undefined at every
index before `n` observations exist, and once `n` observations exist its
rolling averages are the simple (windowed arithmetic, not exponential) means
of the per-bar gains and losses, and the value equals `100 − 100/(1+RS)`
with `RS = avg_gain/avg_loss` whenever the average loss is nonzero. -/
theorem rsi_simple_rolling (n : ℕ) (c : ℕ → ℚ) (i : ℕ) :
    (i + 1 < n → rsiSeries n c i = FP.nan) ∧
    (n ≤ i + 1 →
      avgGain n c i = FP.fin (simpleAvgGain n c i) ∧
      avgLoss n c i = FP.fin (simpleAvgLoss n c i) ∧
      (simpleAvgLoss n c i ≠ 0 →
        rsiSeries n c i =
          FP.fin (100 - 100 / (1 + simpleAvgGain n c i / simpleAvgLoss n c i)))) := by
  constructor
  · intro h
    have hg : avgGain n c i = FP.nan := by
      unfold avgGain rollingMean
      rw [if_pos h]
    unfold rsiSeries rsSeries
    rw [hg, FP.nan_div, FP.add_nan, FP.div_nan, FP.sub_nan]
  · intro h
    refine ⟨avgGain_eq_fin n c i h, avgLoss_eq_fin n c i h, fun hl => ?_⟩
    have hL : 0 < simpleAvgLoss n c i :=
      lt_of_le_of_ne (simpleAvgLoss_nonneg n c i) (Ne.symm hl)
    have hq : 0 ≤ simpleAvgGain n c i / simpleAvgLoss n c i :=
      div_nonneg (simpleAvgGain_nonneg n c i) hL.le
    have hden : (1 : ℚ) + simpleAvgGain n c i / simpleAvgLoss n c i ≠ 0 := by positivity
    unfold rsiSeries rsSeries
    rw [avgGain_eq_fin n c i h, avgLoss_eq_fin n c i h, FP.fin_div_fin _ _ hl,
      FP.fin_add_fin, FP.fin_div_fin _ _ hden, FP.fin_sub_fin]

/-- Witness for C3: at window 2, the RSI of `closeMix` is undefined at
index 0 and equals the simple-rolling-mean formula at index 2. -/
theorem rsi_simple_rolling_witness :
    rsiSeries 2 closeMix 0 = FP.nan ∧
    rsiSeries 2 closeMix 2 =
      FP.fin (100 - 100 / (1 + simpleAvgGain 2 closeMix 2 / simpleAvgLoss 2 closeMix 2)) :=
  ⟨(rsi_simple_rolling 2 closeMix 0).1 (by norm_num),
   ((rsi_simple_rolling 2 closeMix 2).2 (by norm_num)).2.2 (by
      norm_num [simpleAvgLoss, lossQ, closeMix, Finset.sum_range_succ])⟩

/-- C4: when the rolling average loss is zero and the rolling average gain is
positive (pure uptrend), the zero-denominator division inside the RSI
pipeline is normalized — `RS = +inf`, `100/(1+RS) = 0` — and the RSI value is
defined and equals `100`, with no numeric fault propagated. -/
theorem rsi_zero_loss_is_100 (n : ℕ) (c : ℕ → ℚ) (i : ℕ) (h : n ≤ i + 1)
    (hl : simpleAvgLoss n c i = 0) (hg : 0 < simpleAvgGain n c i) :
    rsiSeries n c i = FP.fin 100 := by
  unfold rsiSeries rsSeries
  rw [avgGain_eq_fin n c i h, avgLoss_eq_fin n c i h, hl, FP.fin_div_zero _ hg,
    FP.fin_add_inf, FP.fin_div_inf, FP.fin_sub_fin]
  norm_num

/-- Witness for C4: on the rising series with window 2 at index 1, the
average loss is zero, the average gain positive, and the RSI equals 100. -/
theorem rsi_zero_loss_is_100_witness :
    rsiSeries 2 closeUp 1 = FP.fin 100 :=
  rsi_zero_loss_is_100 2 closeUp 1 (by norm_num)
    (by norm_num [simpleAvgLoss, lossQ, closeUp, Finset.sum_range_succ])
    (by norm_num [simpleAvgGain, gainQ, closeUp, Finset.sum_range_succ])

/-! ## MACD pipeline theorems -/

/-- C5: in the effective MACD pipeline, `macd_line = EMA(close, fast) −
EMA(close, slow)` and `signal_line = EMA(macd_line, signal_period)`, where
the EMA is seeded at index 0 with the first value, obeys
`ema[i+1] = alpha*x[i+1] + (1-alpha)*ema[i]` with `alpha = 2/(n+1)`, and is
defined (a number) from index 0 with no warm-up gap. -/
theorem macd_pipeline_structure (c : ℕ → ℚ) (fast slow sig n : ℕ) :
    (∀ i, taMacd c fast slow i = specEma c fast i - specEma c slow i) ∧
    (∀ i, taMacdSignal c fast slow sig i = specEma (taMacd c fast slow) sig i) ∧
    specEma c n 0 = c 0 ∧
    (∀ i, specEma c n (i + 1) =
      (2 / ((n : ℚ) + 1)) * c (i + 1) + (1 - 2 / ((n : ℚ) + 1)) * specEma c n i) :=
  ⟨fun _ => rfl, fun _ => rfl, rfl, fun _ => rfl⟩

theorem specEma_eq_ema (f : ℕ → ℚ) (n i : ℕ) :
    specEma f n i = MACDCrossover.ema f n i := by
  induction i with
  | zero => rfl
  | succ k ih => rw [specEma, MACDCrossover.ema, ih]

/-- C10: in `macd.py` the later `init`/`next` definitions shadow the earlier
ones; the effective ta-library pipeline and the shadowed hand-rolled
pipeline built on the file's `ema` helper produce the same macd and signal
values at every index. -/
theorem ta_pipeline_eq_hand_rolled (c : ℕ → ℚ) (fast slow sig i : ℕ) :
    taMacd c fast slow i = handMacdLine c fast slow i ∧
    taMacdSignal c fast slow sig i = handSignalLine c fast slow sig i := by
  have hm : ∀ j, taMacd c fast slow j = handMacdLine c fast slow j := by
    intro j
    unfold taMacd handMacdLine
    rw [specEma_eq_ema, specEma_eq_ema]
  refine ⟨hm i, ?_⟩
  unfold taMacdSignal handSignalLine
  rw [specEma_eq_ema, show taMacd c fast slow = handMacdLine c fast slow from funext hm]

/-! ## MACD decision-step theorems -/

theorem macdNext_long_close_iff (m s : ℕ → ℚ) (i : ℕ) :
    macdNext m s i (some Dir.long) = Act.close ↔
      1 ≤ i ∧ s (i - 1) < m (i - 1) ∧ m i < s i := by
  unfold macdNext
  rcases Nat.eq_zero_or_pos i with h0 | h1
  · subst h0
    rw [if_pos (by norm_num)]
    simp
  · rw [if_neg (by omega), if_neg (by simp), if_neg (by simp)]
    by_cases hc : s (i - 1) < m (i - 1) ∧ m i < s i
    · rw [if_pos ⟨rfl, hc.1, hc.2⟩]
      constructor
      · intro _
        exact ⟨h1, hc.1, hc.2⟩
      · intro _
        rfl
    · rw [if_neg (fun hx => hc ⟨hx.2.1, hx.2.2⟩), if_neg (by simp)]
      constructor
      · intro h
        exact absurd h (by simp)
      · rintro ⟨_, h2, h3⟩
        exact absurd ⟨h2, h3⟩ hc

/-- C6: the MACD decision step emits nothing when fewer than 2 indicator
values exist; its decision depends only on the indicator values of the
immediately prior pair of bars `i−1, i` (not a multi-bar window); and a
close-long fires only on an above-then-below pair, so it cannot fire at two
consecutive bars — one crossover sequence triggers exactly one close. -/
theorem macd_prior_pair_single_close (m s mA sA : ℕ → ℚ) (i : ℕ) (pos : Option Dir) :
    (i = 0 → macdNext m s i pos = Act.hold) ∧
    (m (i - 1) = mA (i - 1) → m i = mA i → s (i - 1) = sA (i - 1) → s i = sA i →
      macdNext m s i pos = macdNext mA sA i pos) ∧
    (macdNext m s i (some Dir.long) = Act.close →
      macdNext m s (i + 1) (some Dir.long) ≠ Act.close) := by
  refine ⟨?_, ?_, ?_⟩
  · intro h
    subst h
    rfl
  · intro h1 h2 h3 h4
    unfold macdNext
    rw [h1, h2, h3, h4]
  · intro h hnext
    rw [macdNext_long_close_iff] at h hnext
    have hlt : m i < s i := h.2.2
    have hgt : s ((i + 1) - 1) < m ((i + 1) - 1) := hnext.2.1
    rw [Nat.add_sub_cancel] at hgt
    linarith

/-- Witness for C6: concrete lines with a bearish crossover at bar 1 —
bar 0 emits nothing, the decision at bar 1 is unchanged when the lines are
altered beyond the prior pair, and bar 2 does not emit a second close. -/
theorem macd_prior_pair_single_close_witness :
    macdNext mWit sWit 0 (some Dir.long) = Act.hold ∧
    macdNext mWit sWit 1 (some Dir.long) = macdNext mWitAlt sWitAlt 1 (some Dir.long) ∧
    macdNext mWit sWit 2 (some Dir.long) ≠ Act.close :=
  ⟨(macd_prior_pair_single_close mWit sWit mWitAlt sWitAlt 0 (some Dir.long)).1 rfl,
   (macd_prior_pair_single_close mWit sWit mWitAlt sWitAlt 1 (some Dir.long)).2.1
     (by norm_num [mWit, mWitAlt]) (by norm_num [mWit, mWitAlt])
     (by norm_num [sWit, sWitAlt]) (by norm_num [sWit, sWitAlt]),
   (macd_prior_pair_single_close mWit sWit mWitAlt sWitAlt 1 (some Dir.long)).2.2
     (by rw [macdNext_long_close_iff]
         refine ⟨le_refl 1, ?_, ?_⟩ <;> norm_num [mWit, sWit])⟩

/-! ## Exclusive-position invariant (C1) -/

/-- C1: along any `RSIMeanReversion` backtest run the position is flat,
long, or short — never both long and short; whenever a position is open the
strategy's decision step emits no entry signal (only close or nothing); and
the engine transition ignores any entry action arriving in a non-flat
state, leaving the position unchanged rather than reversing, queueing, or
stacking. -/
theorem exclusive_position_run (os ob ex : ℚ) (rsiS : ℕ → FP) (i : ℕ) :
    ¬(rsiMRRunPos os ob ex rsiS i = some Dir.long ∧
      rsiMRRunPos os ob ex rsiS i = some Dir.short) ∧
    (rsiMRRunPos os ob ex rsiS i ≠ none →
      rsiMRNext os ob ex (rsiS i) (rsiMRRunPos os ob ex rsiS i) ≠ Act.buy ∧
      rsiMRNext os ob ex (rsiS i) (rsiMRRunPos os ob ex rsiS i) ≠ Act.sell) ∧
    (∀ pos : Option Dir, ∀ a : Act, pos ≠ none → a = Act.buy ∨ a = Act.sell →
      applyAct pos a = pos) := by
  refine ⟨?_, ?_, ?_⟩
  · rintro ⟨h1, h2⟩
    rw [h1] at h2
    simp at h2
  · intro h
    cases hpos : rsiMRRunPos os ob ex rsiS i with
    | none => exact absurd hpos h
    | some d =>
        cases d
        · unfold rsiMRNext
          constructor <;> split_ifs <;> simp
        · unfold rsiMRNext
          constructor <;> split_ifs <;> simp
  · intro pos a hpos ha
    cases pos with
    | none => exact absurd rfl hpos
    | some d =>
        rcases ha with rfl | rfl
        · rfl
        · rfl

/-- Witness for C1: on a constantly oversold RSI series the run is long
after bar 0; at bar 1 the open position triggers no entry signal, and an
entry action applied to a long position leaves it unchanged. -/
theorem exclusive_position_run_witness :
    ¬(rsiMRRunPos 30 70 50 rsiWit 1 = some Dir.long ∧
      rsiMRRunPos 30 70 50 rsiWit 1 = some Dir.short) ∧
    (rsiMRNext 30 70 50 (rsiWit 1) (rsiMRRunPos 30 70 50 rsiWit 1) ≠ Act.buy ∧
     rsiMRNext 30 70 50 (rsiWit 1) (rsiMRRunPos 30 70 50 rsiWit 1) ≠ Act.sell) ∧
    applyAct (some Dir.long) Act.buy = some Dir.long :=
  ⟨(exclusive_position_run 30 70 50 rsiWit 1).1,
   (exclusive_position_run 30 70 50 rsiWit 1).2.1 (by
      show rsiMRRunPos 30 70 50 rsiWit 1 ≠ none
      norm_num [rsiMRRunPos, rsiMRNext, applyAct, rsiWit, FP.lt]
      decide),
   (exclusive_position_run 30 70 50 rsiWit 1).2.2 (some Dir.long) Act.buy
     (by decide) (Or.inl rfl)⟩

/-! ## Insufficient data (C2) -/

/-- C2 (amended): with fewer bars than the largest indicator window,
`TrendFilteredRSI.init` prints a warning and does not abort; the backtest
run completes normally — no `DataInsufficient` failure exists in the code —
and every bar is simulated, each decision step returning without action. -/
theorem tfr_insufficient_data_warns_and_skips (p : TFRParams) (price : ℕ → ℚ)
    (rsiS emaS atrS : ℕ → FP) (N : ℕ)
    (h : N < max p.rsiPeriod (max p.emaPeriod p.atrPeriod)) :
    tfrRun p price rsiS emaS atrS N = Except.ok (true, List.replicate N TAct.hold) := by
  unfold tfrRun
  have hw : tfrInitWarns p N = true := by
    unfold tfrInitWarns
    exact decide_eq_true h
  have hact : tfrActions p price rsiS emaS atrS N = List.replicate N TAct.hold := by
    unfold tfrActions
    rw [List.eq_replicate_iff]
    refine ⟨by simp, ?_⟩
    intro b hb
    simp only [List.mem_map, List.mem_range] at hb
    obtain ⟨i, hi, hbi⟩ := hb
    rw [← hbi]
    unfold tfrNext
    rw [if_pos (by omega)]
  rw [hw, hact]

/-- C2 counterexample: on a 3-bar input — fewer bars than the 200-bar
warm-up of the default parameters — the run does not fail with
`DataInsufficient`: it returns successfully with the init warning set, and
all three bars were simulated, each decision step emitting no action. -/
theorem short_data_run_does_not_fail :
    tfrRun TFRParams.default (fun _ => 1) (fun _ => FP.nan) (fun _ => FP.nan)
        (fun _ => FP.nan) 3 =
      Except.ok (true, [TAct.hold, TAct.hold, TAct.hold]) ∧
    tfrRun TFRParams.default (fun _ => 1) (fun _ => FP.nan) (fun _ => FP.nan)
        (fun _ => FP.nan) 3 ≠ Except.error RunError.dataInsufficient := by
  constructor
  · rfl
  · intro h
    rw [tfrRun] at h
    exact Except.noConfusion h

/-- Witness for the amended C2: the 3-bar run returns the warning flag and
three action-free simulated bars. -/
theorem tfr_insufficient_data_witness :
    tfrRun TFRParams.default (fun _ => 1) (fun _ => FP.nan) (fun _ => FP.nan)
        (fun _ => FP.nan) 3 = Except.ok (true, List.replicate 3 TAct.hold) :=
  tfr_insufficient_data_warns_and_skips TFRParams.default (fun _ => 1)
    (fun _ => FP.nan) (fun _ => FP.nan) (fun _ => FP.nan) 3 (by decide)

/-! ## TrendFilteredRSI decision-step theorems -/

theorem tfrNext_flat_eval (p : TFRParams) (nBars : ℕ) (price r e a : ℚ)
    (prevRsi : FP)
    (hn : ¬ nBars < max p.rsiPeriod (max p.emaPeriod p.atrPeriod)) (ha : 0 < a) :
    tfrNext p nBars price (FP.fin r) (FP.fin e) (FP.fin a) prevRsi none =
      if e < price ∧ r < p.oversold then
        (if price - p.slAtrMult * a < price then
          TAct.buySl (price - p.slAtrMult * a) else TAct.warnSkip)
      else if price < e ∧ p.overbought < r then
        (if price < price + p.slAtrMult * a then
          TAct.sellSl (price + p.slAtrMult * a) else TAct.warnSkip)
      else TAct.hold := by
  unfold tfrNext
  rw [if_neg hn]
  have h2 : ((FP.fin r).isNa || (FP.fin e).isNa || (FP.fin a).isNa ||
      FP.le (FP.fin a) (FP.fin 0)) = false := by
    simp [FP.isNa, FP.le, not_le, ha]
  rw [h2]
  simp only [Bool.false_eq_true, if_false, FP.lt, FP.toQ, Bool.and_eq_true,
    decide_eq_true_eq]

/-- C7: a flat `TrendFilteredRSI` with defined (numeric) indicator values,
positive ATR, and positive stop multiplier enters long exactly when the
price is above the trend EMA and the RSI below the oversold threshold, with
stop-loss `price − k·ATR` attached; enters short exactly when the price is
below the trend EMA and the RSI above the overbought threshold, with stop
`price + k·ATR`; and in every other flat state places no entry order. -/
theorem tfr_flat_entry (p : TFRParams) (nBars : ℕ) (price r e a : ℚ)
    (prevRsi : FP)
    (hn : ¬ nBars < max p.rsiPeriod (max p.emaPeriod p.atrPeriod))
    (ha : 0 < a) (hk : 0 < p.slAtrMult) :
    (tfrNext p nBars price (FP.fin r) (FP.fin e) (FP.fin a) prevRsi none =
        TAct.buySl (price - p.slAtrMult * a) ↔ e < price ∧ r < p.oversold) ∧
    (tfrNext p nBars price (FP.fin r) (FP.fin e) (FP.fin a) prevRsi none =
        TAct.sellSl (price + p.slAtrMult * a) ↔ price < e ∧ p.overbought < r) ∧
    (¬(e < price ∧ r < p.oversold) → ¬(price < e ∧ p.overbought < r) →
      tfrNext p nBars price (FP.fin r) (FP.fin e) (FP.fin a) prevRsi none =
        TAct.hold) := by
  have hstop : price - p.slAtrMult * a < price := sub_lt_self price (mul_pos hk ha)
  have hstop2 : price < price + p.slAtrMult * a := lt_add_of_pos_right price (mul_pos hk ha)
  rw [tfrNext_flat_eval p nBars price r e a prevRsi hn ha]
  by_cases h1 : e < price ∧ r < p.oversold
  · rw [if_pos h1, if_pos hstop]
    refine ⟨by simp [h1], ?_, fun hc => absurd h1 hc⟩
    constructor
    · intro h
      exact absurd h (by simp)
    · rintro ⟨hpe, _⟩
      exact absurd h1.1 (lt_asymm hpe)
  · rw [if_neg h1]
    by_cases h2 : price < e ∧ p.overbought < r
    · rw [if_pos h2, if_pos hstop2]
      refine ⟨?_, by simp [h2], fun _ hc => absurd h2 hc⟩
      constructor
      · intro h
        exact absurd h (by simp)
      · rintro hx
        exact absurd hx h1
    · rw [if_neg h2]
      exact ⟨by simp [h1], by simp [h2], fun _ _ => rfl⟩

/-- Witness for C7: with the default parameters on a 200-bar history,
price 10 above EMA 5 with RSI 20 and ATR 1 enters long with stop
`10 − 2·1 = 8`. -/
theorem tfr_flat_entry_witness :
    tfrNext TFRParams.default 200 10 (FP.fin 20) (FP.fin 5) (FP.fin 1) FP.nan none =
      TAct.buySl (10 - TFRParams.default.slAtrMult * 1) :=
  ((tfr_flat_entry TFRParams.default 200 10 20 5 1 FP.nan (by decide) (by norm_num)
      (by norm_num [TFRParams.default])).1).mpr
    (by norm_num [TFRParams.default])

/-- C8: when the entry conditions hold but the computed stop-loss lies on
the wrong side of the current price (not protective), `TrendFilteredRSI`
places no order and instead reports the diagnostic warning branch; the
decision function returns normally, so the run continues without a fatal
error. -/
theorem tfr_illogical_stop_rejected (p : TFRParams) (nBars : ℕ) (price r e a : ℚ)
    (prevRsi : FP)
    (hn : ¬ nBars < max p.rsiPeriod (max p.emaPeriod p.atrPeriod)) (ha : 0 < a) :
    ((e < price ∧ r < p.oversold ∧ ¬(price - p.slAtrMult * a < price)) →
      tfrNext p nBars price (FP.fin r) (FP.fin e) (FP.fin a) prevRsi none =
        TAct.warnSkip) ∧
    ((price < e ∧ p.overbought < r ∧ ¬(price < price + p.slAtrMult * a)) →
      tfrNext p nBars price (FP.fin r) (FP.fin e) (FP.fin a) prevRsi none =
        TAct.warnSkip) := by
  rw [tfrNext_flat_eval p nBars price r e a prevRsi hn ha]
  constructor
  · rintro ⟨h1, h2, h3⟩
    rw [if_pos ⟨h1, h2⟩, if_neg h3]
  · rintro ⟨h1, h2, h3⟩
    rw [if_neg (fun hx => absurd h1 (lt_asymm hx.1)), if_pos ⟨h1, h2⟩, if_neg h3]

/-- A parameter set with stop multiplier 0 (a non-protective stop):
windows 1/1/1, thresholds 30/70/50. -/
def pZeroK : TFRParams := ⟨1, 1, 1, 30, 70, 50, 0⟩

/-- Witness for C8: with stop multiplier 0 the computed long stop equals
the price (wrong side); the entry is rejected with the warning branch. -/
theorem tfr_illogical_stop_rejected_witness :
    tfrNext pZeroK 1 10 (FP.fin 20) (FP.fin 5) (FP.fin 1) FP.nan none =
      TAct.warnSkip :=
  (tfr_illogical_stop_rejected pZeroK 1 10 20 5 1 FP.nan (by decide) (by norm_num)).1
    (by norm_num [pZeroK])

/-- C9: a bar at which any consumed indicator value is undefined
(not-a-number) produces no action and no fault: the `TrendFilteredRSI`
decision step returns `hold` whenever RSI, EMA, or ATR is `nan` (for every
position state), and the `RSIMeanReversion` decision step returns `hold` on
a `nan` RSI (all its IEEE comparisons are false). -/
theorem nan_indicator_no_action (p : TFRParams) (nBars : ℕ) (price : ℚ)
    (rsiV emaV atrV prevRsi : FP) (pos : Option Dir) (os ob ex : ℚ)
    (h : rsiV = FP.nan ∨ emaV = FP.nan ∨ atrV = FP.nan) :
    tfrNext p nBars price rsiV emaV atrV prevRsi pos = TAct.hold ∧
    rsiMRNext os ob ex FP.nan pos = Act.hold := by
  constructor
  · unfold tfrNext
    by_cases hg : nBars < max p.rsiPeriod (max p.emaPeriod p.atrPeriod)
    · rw [if_pos hg]
    · rw [if_neg hg]
      have hna : (rsiV.isNa || emaV.isNa || atrV.isNa || FP.le atrV (FP.fin 0)) = true := by
        rcases h with rfl | rfl | rfl <;> simp [FP.isNa]
      rw [if_pos hna]
  · cases pos with
    | none => simp [rsiMRNext, FP.lt]
    | some d => cases d <;> simp [rsiMRNext, FP.lt]

/-- Witness for C9: a `nan` RSI with numeric EMA/ATR on ample history is
skipped by `TrendFilteredRSI`, and `RSIMeanReversion` holds on a `nan`
RSI. -/
theorem nan_indicator_no_action_witness :
    tfrNext TFRParams.default 300 1 FP.nan (FP.fin 1) (FP.fin 1) FP.nan none =
      TAct.hold ∧
    rsiMRNext 30 70 50 FP.nan none = Act.hold :=
  nan_indicator_no_action TFRParams.default 300 1 FP.nan (FP.fin 1) (FP.fin 1)
    FP.nan none 30 70 50 (Or.inl rfl)
